import Mathlib

/-!
Verification of the client-side image compression pipeline of the koji
repository (`src/lib/compression` and `src/lib/codecs`).

The pipeline exists in three variants:
* the inline jSquash orchestrator (`src/lib/compression/compress.ts`),
* the Canvas-native orchestrator (`compress-native.ts`),
* the dedicated worker (`src/lib/compression/worker.ts`).

External codec operations (the `@jsquash/*` WASM modules, the browser
Canvas API, `fetch`, `Image` loading) are modelled as an explicit
environment record `CodecEnv`; every repository function is translated
as a pure function over that environment, with thrown exceptions
modelled by `Except String` and progress callbacks modelled by
returning the list of progress values emitted in order.
-/

namespace Koji

/-- Byte strings are modelled as lists of naturals. -/
abbrev Bytes := List ℕ

/-- `"jpeg" | "png" | "webp" | "avif"` from `src/lib/codecs/types.ts`. -/
inductive ImageFormat
  | jpeg
  | png
  | webp
  | avif
deriving DecidableEq, Repr

/-- `"smart" | "maximum" | "web" | "custom"` from `src/lib/codecs/types.ts`. -/
inductive CompressionMode
  | smart
  | maximum
  | web
  | custom
deriving DecidableEq, Repr

/-- `SMART_QUALITY` table from `src/lib/codecs/types.ts`. -/
def SMART_QUALITY : ImageFormat → ℚ
  | .jpeg => 82
  | .png => 100
  | .webp => 80
  | .avif => 63

/-- `MAXIMUM_QUALITY` table from `src/lib/codecs/types.ts`. -/
def MAXIMUM_QUALITY : ImageFormat → ℚ
  | .jpeg => 60
  | .png => 70
  | .webp => 55
  | .avif => 40

/-- `WEB_QUALITY` table from `src/lib/codecs/types.ts`. -/
def WEB_QUALITY : ImageFormat → ℚ
  | .jpeg => 75
  | .png => 85
  | .webp => 72
  | .avif => 55

/-- `AVIF_EFFORT` constant from `src/lib/codecs/types.ts`. -/
def AVIF_EFFORT : ℕ := 4

/-- A decoded `ImageData`: width, height, RGBA byte data. -/
structure ImageData where
  width : ℕ
  height : ℕ
  data : Bytes
deriving DecidableEq, Repr

/-- A `Blob`: a declared media-type string plus the underlying bytes.
`blob.size` and `arrayBuffer().byteLength` are both `data.length`. -/
structure Blob where
  type : String
  data : Bytes
deriving DecidableEq, Repr

/-- `CompressionOptions` from `compress.ts` / `compress-native.ts`. -/
structure CompressionOptions where
  mode : CompressionMode
  quality : ℚ
  outputFormat : ImageFormat
deriving DecidableEq, Repr

/-- `CompressionResult` from `compress.ts` / `compress-native.ts`:
the encoded buffer, the result blob, the measured sizes and the
savings percentage. -/
structure CompressionResult where
  buffer : Bytes
  blob : Blob
  originalSize : ℕ
  compressedSize : ℕ
  savings : ℤ
deriving DecidableEq, Repr

/-- JavaScript `String.prototype.includes` on explicit character lists:
`leadsWith sub l` holds when `sub` is an initial segment of `l`. -/
def leadsWith : List Char → List Char → Bool
  | [], _ => true
  | _ :: _, [] => false
  | a :: sub, b :: rest => a == b && leadsWith sub rest

/-- Search for `sub` as a contiguous segment of the character list. -/
def strIncludesAux (sub : List Char) : List Char → Bool
  | [] => leadsWith sub []
  | b :: rest => leadsWith sub (b :: rest) || strIncludesAux sub rest

/-- `s.includes(sub)` of JavaScript. -/
def strIncludes (s sub : String) : Bool := strIncludesAux sub.data s.data

/-- `s.toLowerCase()` of JavaScript (ASCII range, which covers the
media-type strings the detector inspects). -/
def strToLower (s : String) : String := ⟨s.data.map Char.toLower⟩

/-- `Math.round` of JavaScript on exact rationals: round half toward
positive infinity. -/
def jsRound (x : ℚ) : ℤ := ⌊x + 1 / 2⌋

/-- The environment of external codec operations: the `@jsquash/*`
modules, the Canvas API, `fetch` and `Image` loading.  A thrown
exception is an `Except.error`, carrying the message.  `avifDecode` is
the raw `@jsquash/avif` `decode`, whose JS value may be `null`
(modelled by `Option`).  `canvasToBlob` is `HTMLCanvasElement.toBlob`
(mime type and 0–1 quality argument), whose callback may receive
`null`.  `isAvifBytes` is not used by any repository code: it models
the environment-level fact of whether a byte string really is AVIF
data, used only to state the AVIF-downgrade claim. -/
structure CodecEnv where
  decodeJpeg : Bytes → Except String ImageData
  decodePng : Bytes → Except String ImageData
  decodeWebp : Bytes → Except String ImageData
  avifDecode : Bytes → Except String (Option ImageData)
  encodeJpeg : ImageData → ℚ → Except String Bytes
  encodePng : ImageData → Except String Bytes
  optimizePng : Bytes → ℕ → Except String Bytes
  encodeWebp : ImageData → ℚ → Except String Bytes
  encodeAvif : ImageData → ℚ → ℕ → Except String Bytes
  canvasToBlob : ImageData → String → ℚ → Option Blob
  loadImage : String → Except String ImageData
  loadBlobImage : Blob → Except String ImageData
  fetchUrl : String → Except String Blob
  isAvifBytes : Bytes → Bool

/-- `decodeAvif` from `src/lib/codecs/avif.ts`: a null result of the
underlying decoder is turned into a thrown decode error. -/
def decodeAvif (env : CodecEnv) (buffer : Bytes) : Except String ImageData :=
  match env.avifDecode buffer with
  | .error e => .error e
  | .ok none => .error "AVIF decode returned null — corrupt or unsupported image"
  | .ok (some result) => .ok result

/-- `getQuality` from `compress.ts` / `compress-native.ts`. -/
def getQuality (mode : CompressionMode) (format : ImageFormat) (customQuality : ℚ) : ℚ :=
  match mode with
  | .smart => SMART_QUALITY format
  | .maximum => MAXIMUM_QUALITY format
  | .web => WEB_QUALITY format
  | .custom => customQuality

/-- `detectFormat` from `compress.ts` / `compress-native.ts`. -/
def detectFormat (blob : Blob) : Option ImageFormat :=
  let type := strToLower blob.type
  if strIncludes type "jpeg" || strIncludes type "jpg" then some .jpeg
  else if strIncludes type "png" then some .png
  else if strIncludes type "webp" then some .webp
  else if strIncludes type "avif" then some .avif
  else none

/-- `getMimeType` from `compress.ts` / `compress-native.ts`. -/
def getMimeType : ImageFormat → String
  | .jpeg => "image/jpeg"
  | .png => "image/png"
  | .webp => "image/webp"
  | .avif => "image/avif"

/-- Result record of `decodeFromBlob` in `compress.ts`. -/
structure DecodedBlob where
  imageData : ImageData
  format : ImageFormat
  originalSize : ℕ
deriving DecidableEq, Repr

/-- `decodeFromBlob` from `compress.ts`: detect the format from the
blob's declared media type, then decode with the matching codec. -/
def decodeFromBlob (env : CodecEnv) (blob : Blob) : Except String DecodedBlob :=
  match detectFormat blob with
  | none => .error "Unsupported image format"
  | some format =>
    let decoded : Except String ImageData :=
      match format with
      | .jpeg => env.decodeJpeg blob.data
      | .png => env.decodePng blob.data
      | .webp => env.decodeWebp blob.data
      | .avif => decodeAvif env blob.data
    match decoded with
    | .error e => .error e
    | .ok imageData => .ok ⟨imageData, format, blob.data.length⟩

/-- `encode` from `compress.ts`: encode `ImageData` with the codec of
the target format; the PNG path always chains `optimizePng` at level 3. -/
def encode (env : CodecEnv) (imageData : ImageData) (format : ImageFormat)
    (quality : ℚ) : Except String Bytes :=
  match format with
  | .jpeg => env.encodeJpeg imageData quality
  | .png =>
    match env.encodePng imageData with
    | .error e => .error e
    | .ok rawPng => env.optimizePng rawPng 3
  | .webp => env.encodeWebp imageData quality
  | .avif => env.encodeAvif imageData quality AVIF_EFFORT

/-- The `savings` computation repeated in all four orchestrator entry
points: `Math.round(((originalSize - compressedSize) / originalSize) * 100)`
when `originalSize > 0`, else `0`. -/
def computeSavings (originalSize compressedSize : ℕ) : ℤ :=
  if 0 < originalSize then
    jsRound (((originalSize : ℚ) - (compressedSize : ℚ)) / (originalSize : ℚ) * 100)
  else 0

/-- `compressFromUrl` from `compress.ts`.  The first component is the
returned result or thrown error; the second is the list of values the
`onProgress` callback received, in order. -/
def compressFromUrl (env : CodecEnv) (url : String) (options : CompressionOptions) :
    Except String CompressionResult × List ℕ :=
  match env.fetchUrl url with
  | .error e => (.error e, [5])
  | .ok blob =>
    let originalSize := blob.data.length
    match decodeFromBlob env blob with
    | .error e => (.error e, [5, 15])
    | .ok decoded =>
      let quality := getQuality options.mode options.outputFormat options.quality
      match encode env decoded.imageData options.outputFormat quality with
      | .error e => (.error e, [5, 15, 40])
      | .ok compressedBuffer =>
        let compressedBlob : Blob := ⟨getMimeType options.outputFormat, compressedBuffer⟩
        let compressedSize := compressedBuffer.length
        let savings := computeSavings originalSize compressedSize
        (.ok ⟨compressedBuffer, compressedBlob, originalSize, compressedSize, savings⟩,
          [5, 15, 40, 90, 100])

/-- `compressFromBlob` from `compress.ts`. -/
def compressFromBlob (env : CodecEnv) (inputBlob : Blob) (options : CompressionOptions) :
    Except String CompressionResult × List ℕ :=
  match decodeFromBlob env inputBlob with
  | .error e => (.error e, [5])
  | .ok decoded =>
    let quality := getQuality options.mode options.outputFormat options.quality
    match encode env decoded.imageData options.outputFormat quality with
    | .error e => (.error e, [5, 40])
    | .ok compressedBuffer =>
      let compressedBlob : Blob := ⟨getMimeType options.outputFormat, compressedBuffer⟩
      let compressedSize := compressedBuffer.length
      let savings := computeSavings decoded.originalSize compressedSize
      (.ok ⟨compressedBuffer, compressedBlob, decoded.originalSize, compressedSize, savings⟩,
        [5, 40, 90, 100])

/-- Per-format bytes-per-pixel table from `estimateSize`. -/
def bppBase : ImageFormat → ℚ
  | .png => 2.0
  | .jpeg => 0.4
  | .webp => 0.25
  | .avif => 0.15

/-- `estimateSize` from `compress.ts` / `compress-native.ts` (the two
copies are identical). -/
def estimateSize (originalSize : ℚ) (width height : ℕ) (format : ImageFormat)
    (mode : CompressionMode) (customQuality : ℚ) : ℚ :=
  let pixels : ℚ := (width : ℚ) * (height : ℚ)
  let quality := getQuality mode format customQuality
  let qualityFactor : ℚ := if format = .png then 1.0 else 0.5 + quality / 100 * 0.8
  let estimatedSize := pixels * bppBase format * qualityFactor
  min estimatedSize originalSize

namespace Native

/-- `encodeWithCanvas` from `compress-native.ts`: draw the image on a
canvas and call `toBlob` with the target mime type and the quality on
the 0–1 scale; a `null` blob rejects with an encode error. -/
def encodeWithCanvas (env : CodecEnv) (img : ImageData) (format : ImageFormat)
    (quality : ℚ) : Except String Blob :=
  match env.canvasToBlob img (getMimeType format) (quality / 100) with
  | some blob => .ok blob
  | none => .error ("Failed to encode as " ++ getMimeType format)

/-- The body of the `try` block in the native orchestrators: encode as
the requested format, and when AVIF was requested but the produced
blob's declared type does not contain `"avif"`, re-encode as WebP. -/
def tryEncode (env : CodecEnv) (img : ImageData) (outputFormat : ImageFormat)
    (quality : ℚ) : Except String Blob :=
  match encodeWithCanvas env img outputFormat quality with
  | .error e => .error e
  | .ok compressedBlob =>
    if outputFormat = .avif && !(strIncludes compressedBlob.type "avif") then
      encodeWithCanvas env img .webp quality
    else .ok compressedBlob

/-- The `try`/`catch` around encoding in the native orchestrators: when
anything in the `try` block throws, fall back once to JPEG. -/
def encodeWithFallback (env : CodecEnv) (img : ImageData) (outputFormat : ImageFormat)
    (quality : ℚ) : Except String Blob :=
  match tryEncode env img outputFormat quality with
  | .ok compressedBlob => .ok compressedBlob
  | .error _ => encodeWithCanvas env img .jpeg quality

/-- `compressFromUrl` from `compress-native.ts`. -/
def compressFromUrl (env : CodecEnv) (url : String) (options : CompressionOptions) :
    Except String CompressionResult × List ℕ :=
  match env.fetchUrl url with
  | .error e => (.error e, [5])
  | .ok originalBlob =>
    let originalSize := originalBlob.data.length
    match env.loadImage url with
    | .error e => (.error e, [5, 20])
    | .ok img =>
      let quality := getQuality options.mode options.outputFormat options.quality
      match encodeWithFallback env img options.outputFormat quality with
      | .error e => (.error e, [5, 20, 40])
      | .ok compressedBlob =>
        let compressedBuffer := compressedBlob.data
        let compressedSize := compressedBuffer.length
        let savings := computeSavings originalSize compressedSize
        (.ok ⟨compressedBuffer, compressedBlob, originalSize, compressedSize, savings⟩,
          [5, 20, 40, 90, 100])

/-- `compressFromBlob` from `compress-native.ts` (the object URL made
from the input blob is modelled by `loadBlobImage`). -/
def compressFromBlob (env : CodecEnv) (inputBlob : Blob) (options : CompressionOptions) :
    Except String CompressionResult × List ℕ :=
  let originalSize := inputBlob.data.length
  match env.loadBlobImage inputBlob with
  | .error e => (.error e, [5])
  | .ok img =>
    let quality := getQuality options.mode options.outputFormat options.quality
    match encodeWithFallback env img options.outputFormat quality with
    | .error e => (.error e, [5, 40])
    | .ok compressedBlob =>
      let compressedBuffer := compressedBlob.data
      let compressedSize := compressedBuffer.length
      let savings := computeSavings originalSize compressedSize
      (.ok ⟨compressedBuffer, compressedBlob, originalSize, compressedSize, savings⟩,
        [5, 40, 90, 100])

end Native

namespace Worker

/-- `CompressionSettings` from `src/lib/compression/types.ts`. -/
structure CompressionSettings where
  mode : CompressionMode
  quality : ℚ
  format : ImageFormat
deriving DecidableEq, Repr

/-- The payload of a `CompressRequest` message from
`src/lib/compression/types.ts` (the fixed `type: "compress"` tag is
carried by `WorkerEvent` below). -/
structure CompressRequest where
  id : String
  buffer : Bytes
  inputFormat : ImageFormat
  settings : CompressionSettings
deriving DecidableEq, Repr

/-- `WorkerResponse` from `src/lib/compression/types.ts`: the three
message kinds the worker posts. -/
inductive WorkerResponse
  | progress (id : String) (value : ℕ)
  | result (id : String) (buffer : Bytes) (originalSize compressedSize : ℕ)
  | error (id : String) (message : String)
deriving DecidableEq, Repr

/-- `decodeBuffer` from `worker.ts`. -/
def decodeBuffer (env : CodecEnv) (buffer : Bytes) (format : ImageFormat) :
    Except String ImageData :=
  match format with
  | .jpeg => env.decodeJpeg buffer
  | .png => env.decodePng buffer
  | .webp => env.decodeWebp buffer
  | .avif => decodeAvif env buffer

/-- `getQualityForSettings` from `worker.ts`. -/
def getQualityForSettings (settings : CompressionSettings) : ℚ :=
  match settings.mode with
  | .smart => SMART_QUALITY settings.format
  | .maximum => MAXIMUM_QUALITY settings.format
  | .web => WEB_QUALITY settings.format
  | .custom => settings.quality

/-- `encodeBuffer` from `worker.ts`. -/
def encodeBuffer (env : CodecEnv) (imageData : ImageData)
    (settings : CompressionSettings) : Except String Bytes :=
  let quality := getQualityForSettings settings
  match settings.format with
  | .jpeg => env.encodeJpeg imageData quality
  | .png =>
    match env.encodePng imageData with
    | .error e => .error e
    | .ok rawPng => env.optimizePng rawPng 3
  | .webp => env.encodeWebp imageData quality
  | .avif => env.encodeAvif imageData quality AVIF_EFFORT

/-- `processImage` from `worker.ts`, returning the list of messages the
worker posts for the request, in order.  The `try`/`catch` converts any
exception of the decode/encode pipeline into a single `error` message. -/
def processImage (env : CodecEnv) (request : CompressRequest) : List WorkerResponse :=
  match decodeBuffer env request.buffer request.inputFormat with
  | .error e => [.progress request.id 5, .error request.id e]
  | .ok imageData =>
    match encodeBuffer env imageData request.settings with
    | .error e =>
      [.progress request.id 5, .progress request.id 30, .progress request.id 35,
        .error request.id e]
    | .ok compressedBuffer =>
      [.progress request.id 5, .progress request.id 30, .progress request.id 35,
        .progress request.id 90,
        .result request.id compressedBuffer request.buffer.length compressedBuffer.length]

/-- An incoming `message` event: the `type` tag of `event.data` plus
the request fields. -/
structure WorkerEvent where
  msgType : String
  request : CompressRequest
deriving DecidableEq, Repr

/-- The `message` listener at the bottom of `worker.ts`: only events
whose data has `type === "compress"` are processed. -/
def onMessage (env : CodecEnv) (event : WorkerEvent) : List WorkerResponse :=
  if event.msgType = "compress" then processImage env event.request else []

/-- The progress values carried by the `progress` messages of a
response list, in order. -/
def progressValues : List WorkerResponse → List ℕ
  | [] => []
  | .progress _ v :: rest => v :: progressValues rest
  | .result _ _ _ _ :: rest => progressValues rest
  | .error _ _ :: rest => progressValues rest

/-- Whether a worker response is terminal (a `result` or an `error`). -/
def isTerminal : WorkerResponse → Bool
  | .progress _ _ => false
  | .result _ _ _ _ => true
  | .error _ _ => true

/-- The correlation id carried by a worker response. -/
def responseId : WorkerResponse → String
  | .progress id _ => id
  | .result id _ _ _ => id
  | .error id _ => id

/-- Whether a response list contains a `result` message. -/
def hasResult (responses : List WorkerResponse) : Bool :=
  responses.any fun r =>
    match r with
    | .result _ _ _ _ => true
    | _ => false

/-- The terminal payload of a response list: the buffer of the first
`result`, or the message of the first `error`. -/
def terminalOutput : List WorkerResponse → Option (Except String Bytes)
  | [] => none
  | .result _ buffer _ _ :: _ => some (.ok buffer)
  | .error _ e :: _ => some (.error e)
  | .progress _ _ :: rest => terminalOutput rest

end Worker

/-! ### Spec-side formulas and concrete fixtures -/

/-- The savings invariant exactly as the spec states it:
`savingsPercent = round((originalSizeBytes − compressedSizeBytes) / originalSizeBytes × 100)`
when `originalSizeBytes > 0`, else `0`. -/
def savingsSpec (r : CompressionResult) : Prop :=
  r.savings =
    if 0 < r.originalSize then
      jsRound (((r.originalSize : ℚ) - (r.compressedSize : ℚ)) / (r.originalSize : ℚ) * 100)
    else 0

/-- The size-estimator formula exactly as the spec states it:
`min(width × height × bpp(format) × qualityFactor, originalSize)` with
bpp = \x7bpng: 2.0, jpeg: 0.4, webp: 0.25, avif: 0.15\x7d, qualityFactor 1.0
for PNG and `0.5 + (resolvedQuality/100) × 0.8` otherwise, and
`resolvedQuality` resolved by the same mode lookup as the orchestrator. -/
def specEstimate (originalSize : ℚ) (width height : ℕ) (format : ImageFormat)
    (mode : CompressionMode) (customQuality : ℚ) : ℚ :=
  let bpp : ℚ :=
    match format with
    | .png => 2.0
    | .jpeg => 0.4
    | .webp => 0.25
    | .avif => 0.15
  let resolvedQuality := getQuality mode format customQuality
  let qualityFactor : ℚ := if format = .png then 1.0 else 0.5 + resolvedQuality / 100 * 0.8
  min ((width : ℚ) * (height : ℚ) * bpp * qualityFactor) originalSize

/-- The buffer a compression outcome carries: the encoded bytes on
success, the error otherwise. -/
def resultBuffer : Except String CompressionResult → Except String Bytes
  | .error e => .error e
  | .ok r => .ok r.buffer

/-- A 1×1 RGBA test image. -/
def testImage : ImageData := ⟨1, 1, [0, 0, 0, 255]⟩

/-- A 10-byte test blob with a PNG media type. -/
def testBlob : Blob := ⟨"image/png", [1, 2, 3, 4, 5, 6, 7, 8, 9, 10]⟩

/-- A concrete codec environment in which every operation succeeds,
with distinguishable outputs per codec.  The PNG optimizer appends a
marker byte, the canvas encoder returns `[9, 9]` under the requested
mime type, and the byte-sniffer `isAvifBytes` reports that no byte
string is genuine AVIF (the silently-downgrading environment of the
AVIF fallback rule). -/
def testEnv : CodecEnv :=
  { decodeJpeg := fun _ => .ok testImage
    decodePng := fun _ => .ok testImage
    decodeWebp := fun _ => .ok testImage
    avifDecode := fun _ => .ok (some testImage)
    encodeJpeg := fun _ _ => .ok [1, 1]
    encodePng := fun _ => .ok [2, 2]
    optimizePng := fun buffer _ => .ok (buffer ++ [7])
    encodeWebp := fun _ _ => .ok [3, 3]
    encodeAvif := fun _ _ _ => .ok [4, 4]
    canvasToBlob := fun _ mime _ => some ⟨mime, [9, 9]⟩
    loadImage := fun _ => .ok testImage
    loadBlobImage := fun _ => .ok testImage
    fetchUrl := fun _ => .ok testBlob
    isAvifBytes := fun _ => false }

/-- `testEnv` with a failing WebP encoder (the JPEG encoder still
succeeds). -/
def cenvC2 : CodecEnv :=
  { testEnv with encodeWebp := fun _ _ => .error "webp encoder failed" }

/-- `testEnv` whose canvas refuses every mime type except JPEG. -/
def cenvC2n : CodecEnv :=
  { testEnv with canvasToBlob := fun _ mime _ =>
      if mime = "image/jpeg" then some ⟨"image/jpeg", [8, 8]⟩ else none }

/-- `testEnv` whose canvas silently downgrades an AVIF request to PNG
(the blob comes back typed `image/png`). -/
def cenvC3n : CodecEnv :=
  { testEnv with canvasToBlob := fun _ mime _ =>
      if mime = "image/avif" then some ⟨"image/png", [6, 6]⟩ else some ⟨mime, [9, 9]⟩ }

/-- `testEnv` whose raw AVIF decoder returns `null`. -/
def cenvC9 : CodecEnv :=
  { testEnv with avifDecode := fun _ => .ok none }

/-- Custom-mode WebP options used by the concrete fixtures. -/
def copts : CompressionOptions := ⟨.custom, 50, .webp⟩

/-- The result `compressFromBlob testEnv testBlob copts` produces. -/
def c1res : CompressionResult :=
  ⟨[3, 3], ⟨"image/webp", [3, 3]⟩, 10, 2, computeSavings 10 2⟩

/-- The result the inline jSquash orchestrator produces for an AVIF
request in `testEnv`. -/
def c3res : CompressionResult :=
  ⟨[4, 4], ⟨"image/avif", [4, 4]⟩, 10, 2, computeSavings 10 2⟩

/-- The result the Canvas-native orchestrator produces for a PNG
request in `testEnv`. -/
def c7res : CompressionResult :=
  ⟨[9, 9], ⟨"image/png", [9, 9]⟩, 10, 2, computeSavings 10 2⟩

/-- Custom-mode WebP worker settings used by the concrete fixtures. -/
def testSettings : Worker.CompressionSettings := ⟨.custom, 50, .webp⟩

/-- A concrete worker request. -/
def testRequest : Worker.CompressRequest := ⟨"req-1", testBlob.data, .png, testSettings⟩

/-- A concrete `compress`-typed worker event. -/
def testEvent : Worker.WorkerEvent := ⟨"compress", testRequest⟩

/-! ### Helper lemmas -/

/-- The worker's quality lookup agrees with the inline orchestrator's. -/
theorem getQualityForSettings_eq (settings : Worker.CompressionSettings) :
    Worker.getQualityForSettings settings
      = getQuality settings.mode settings.format settings.quality := by
  obtain ⟨mode, quality, format⟩ := settings
  cases mode <;> rfl

/-- The worker's `encodeBuffer` is the inline `encode` at the resolved
quality. -/
theorem encodeBuffer_eq_encode (env : CodecEnv) (imageData : ImageData)
    (settings : Worker.CompressionSettings) :
    Worker.encodeBuffer env imageData settings
      = encode env imageData settings.format
          (getQuality settings.mode settings.format settings.quality) := by
  obtain ⟨mode, quality, format⟩ := settings
  cases mode <;> cases format <;> rfl

/-- When the format detector succeeds, the inline `decodeFromBlob` is
the worker's `decodeBuffer` on the blob's bytes. -/
theorem decodeFromBlob_eq_decodeBuffer (env : CodecEnv) (blob : Blob) (fmt : ImageFormat)
    (h : detectFormat blob = some fmt) :
    decodeFromBlob env blob
      = (Worker.decodeBuffer env blob.data fmt).map
          (fun imageData => ⟨imageData, fmt, blob.data.length⟩) := by
  simp only [decodeFromBlob, h]
  cases fmt <;> cases hd : Worker.decodeBuffer env blob.data _ <;>
    simp_all [Worker.decodeBuffer, Except.map]

/-! ### Claims -/

/-- C6: for every (mode, format) pair with mode ≠ custom, `getQuality`
returns the fixed policy-table entry — an integer in [1, 100] —
independently of the caller-supplied quality; for mode = custom it
returns the caller-supplied value unchanged; and smart × webp resolves
to 80. -/
theorem C6_resolve_quality (mode : CompressionMode) (format : ImageFormat)
    (q q' : ℚ) (h : mode ≠ CompressionMode.custom) :
    (getQuality mode format q = getQuality mode format q' ∧
      ∃ n : ℕ, 1 ≤ n ∧ n ≤ 100 ∧ getQuality mode format q = (n : ℚ)) ∧
    (∀ c : ℚ, getQuality CompressionMode.custom format c = c) ∧
    getQuality CompressionMode.smart ImageFormat.webp q = 80 := by
  refine ⟨?_, fun c => rfl, by norm_num [getQuality, SMART_QUALITY]⟩
  cases mode with
  | custom => exact absurd rfl h
  | smart =>
    cases format with
    | jpeg => exact ⟨rfl, 82, by norm_num, by norm_num, by norm_num [getQuality, SMART_QUALITY]⟩
    | png => exact ⟨rfl, 100, by norm_num, by norm_num, by norm_num [getQuality, SMART_QUALITY]⟩
    | webp => exact ⟨rfl, 80, by norm_num, by norm_num, by norm_num [getQuality, SMART_QUALITY]⟩
    | avif => exact ⟨rfl, 63, by norm_num, by norm_num, by norm_num [getQuality, SMART_QUALITY]⟩
  | maximum =>
    cases format with
    | jpeg => exact ⟨rfl, 60, by norm_num, by norm_num, by norm_num [getQuality, MAXIMUM_QUALITY]⟩
    | png => exact ⟨rfl, 70, by norm_num, by norm_num, by norm_num [getQuality, MAXIMUM_QUALITY]⟩
    | webp => exact ⟨rfl, 55, by norm_num, by norm_num, by norm_num [getQuality, MAXIMUM_QUALITY]⟩
    | avif => exact ⟨rfl, 40, by norm_num, by norm_num, by norm_num [getQuality, MAXIMUM_QUALITY]⟩
  | web =>
    cases format with
    | jpeg => exact ⟨rfl, 75, by norm_num, by norm_num, by norm_num [getQuality, WEB_QUALITY]⟩
    | png => exact ⟨rfl, 85, by norm_num, by norm_num, by norm_num [getQuality, WEB_QUALITY]⟩
    | webp => exact ⟨rfl, 72, by norm_num, by norm_num, by norm_num [getQuality, WEB_QUALITY]⟩
    | avif => exact ⟨rfl, 55, by norm_num, by norm_num, by norm_num [getQuality, WEB_QUALITY]⟩

/-- Witness for C6 at mode = maximum, format = jpeg. -/
theorem C6_resolve_quality_witness :
    CompressionMode.maximum ≠ CompressionMode.custom ∧
    ((getQuality CompressionMode.maximum ImageFormat.jpeg 1
        = getQuality CompressionMode.maximum ImageFormat.jpeg 2 ∧
      ∃ n : ℕ, 1 ≤ n ∧ n ≤ 100 ∧
        getQuality CompressionMode.maximum ImageFormat.jpeg 1 = (n : ℚ)) ∧
     (∀ c : ℚ, getQuality CompressionMode.custom ImageFormat.jpeg c = c) ∧
     getQuality CompressionMode.smart ImageFormat.webp 1 = 80) :=
  ⟨by decide,
    C6_resolve_quality CompressionMode.maximum ImageFormat.jpeg 1 2 (by decide)⟩

/-- C1: every `CompressionResult` produced by `compressFromUrl` or
`compressFromBlob`, in the jSquash variant and in the Canvas-native
variant alike, has `savings = round((originalSize − compressedSize) /
originalSize × 100)` when `originalSize > 0` and `0` otherwise, with
`originalSize` the source blob's byte length and `compressedSize` the
encoded buffer's byte length. -/
theorem C1_savings_invariant (env : CodecEnv) (url : String) (inputBlob : Blob)
    (options : CompressionOptions) :
    (∀ r ps blob, compressFromUrl env url options = (.ok r, ps) →
      env.fetchUrl url = .ok blob →
      r.originalSize = blob.data.length ∧ r.compressedSize = r.buffer.length ∧
        savingsSpec r) ∧
    (∀ r ps, compressFromBlob env inputBlob options = (.ok r, ps) →
      r.originalSize = inputBlob.data.length ∧ r.compressedSize = r.buffer.length ∧
        savingsSpec r) ∧
    (∀ r ps blob, Native.compressFromUrl env url options = (.ok r, ps) →
      env.fetchUrl url = .ok blob →
      r.originalSize = blob.data.length ∧ r.compressedSize = r.buffer.length ∧
        savingsSpec r) ∧
    (∀ r ps, Native.compressFromBlob env inputBlob options = (.ok r, ps) →
      r.originalSize = inputBlob.data.length ∧ r.compressedSize = r.buffer.length ∧
        savingsSpec r) := by
  refine ⟨?_, ?_, ?_, ?_⟩
  · intro r ps blob h hf
    simp only [compressFromUrl, hf] at h
    cases hd : decodeFromBlob env blob with
    | error e => simp only [hd] at h; exact absurd h (by simp)
    | ok decoded =>
      simp only [hd] at h
      cases he : encode env decoded.imageData options.outputFormat
          (getQuality options.mode options.outputFormat options.quality) with
      | error e => simp only [he] at h; exact absurd h (by simp)
      | ok compressedBuffer =>
        simp only [he, Prod.mk.injEq, Except.ok.injEq] at h
        obtain ⟨h1, h2⟩ := h
        subst h1
        exact ⟨rfl, rfl, rfl⟩
  · intro r ps h
    simp only [compressFromBlob] at h
    cases hd : decodeFromBlob env inputBlob with
    | error e => simp only [hd] at h; exact absurd h (by simp)
    | ok decoded =>
      simp only [hd] at h
      cases he : encode env decoded.imageData options.outputFormat
          (getQuality options.mode options.outputFormat options.quality) with
      | error e => simp only [he] at h; exact absurd h (by simp)
      | ok compressedBuffer =>
        simp only [he, Prod.mk.injEq, Except.ok.injEq] at h
        obtain ⟨h1, h2⟩ := h
        subst h1
        refine ⟨?_, rfl, rfl⟩
        have : decoded.originalSize = inputBlob.data.length := by
          cases hdet : detectFormat inputBlob with
          | none => simp [decodeFromBlob, hdet] at hd
          | some fmt =>
            rw [decodeFromBlob_eq_decodeBuffer env inputBlob fmt hdet] at hd
            cases hb : Worker.decodeBuffer env inputBlob.data fmt with
            | error e => rw [hb] at hd; simp [Except.map] at hd
            | ok imageData =>
              rw [hb] at hd
              simp only [Except.map, Except.ok.injEq] at hd
              rw [← hd]
        exact this
  · intro r ps blob h hf
    simp only [Native.compressFromUrl, hf] at h
    cases hl : env.loadImage url with
    | error e => simp only [hl] at h; exact absurd h (by simp)
    | ok img =>
      simp only [hl] at h
      cases he : Native.encodeWithFallback env img options.outputFormat
          (getQuality options.mode options.outputFormat options.quality) with
      | error e => simp only [he] at h; exact absurd h (by simp)
      | ok compressedBlob =>
        simp only [he, Prod.mk.injEq, Except.ok.injEq] at h
        obtain ⟨h1, h2⟩ := h
        subst h1
        exact ⟨rfl, rfl, rfl⟩
  · intro r ps h
    simp only [Native.compressFromBlob] at h
    cases hl : env.loadBlobImage inputBlob with
    | error e => simp only [hl] at h; exact absurd h (by simp)
    | ok img =>
      simp only [hl] at h
      cases he : Native.encodeWithFallback env img options.outputFormat
          (getQuality options.mode options.outputFormat options.quality) with
      | error e => simp only [he] at h; exact absurd h (by simp)
      | ok compressedBlob =>
        simp only [he, Prod.mk.injEq, Except.ok.injEq] at h
        obtain ⟨h1, h2⟩ := h
        subst h1
        exact ⟨rfl, rfl, rfl⟩

/-- Witness for C1: a concrete successful `compressFromBlob` run whose
result satisfies the savings invariant. -/
theorem C1_savings_invariant_witness :
    compressFromBlob testEnv testBlob copts = (Except.ok c1res, [5, 40, 90, 100]) ∧
    (c1res.originalSize = testBlob.data.length ∧
      c1res.compressedSize = c1res.buffer.length ∧ savingsSpec c1res) := by
  have h : compressFromBlob testEnv testBlob copts
      = (Except.ok c1res, [5, 40, 90, 100]) := rfl
  exact ⟨h, (C1_savings_invariant testEnv "u" testBlob copts).2.1 c1res [5, 40, 90, 100] h⟩

/-- C8: `estimateSize` equals the spec's formula
`min(width × height × bpp(format) × qualityFactor, originalSize)` with
the stated constant tables and the orchestrator's quality lookup, and
consequently never exceeds the original size. -/
theorem C8_estimate_size (originalSize : ℚ) (width height : ℕ) (format : ImageFormat)
    (mode : CompressionMode) (customQuality : ℚ) :
    estimateSize originalSize width height format mode customQuality
      = specEstimate originalSize width height format mode customQuality ∧
    estimateSize originalSize width height format mode customQuality ≤ originalSize := by
  constructor
  · cases format <;> rfl
  · exact min_le_right _ _

/-- C5: for identical input bytes, input format and settings, the
worker's decode→resolve-quality→encode pipeline produces exactly the
encoded buffer (or the error) the inline orchestrator produces: the
terminal payload of `processImage` equals the buffer of
`compressFromBlob`'s result. -/
theorem C5_host_equivalence (env : CodecEnv) (inputBlob : Blob) (fmt : ImageFormat)
    (settings : Worker.CompressionSettings) (id : String)
    (hdetect : detectFormat inputBlob = some fmt) :
    Worker.terminalOutput (Worker.processImage env ⟨id, inputBlob.data, fmt, settings⟩)
      = some (resultBuffer
          (compressFromBlob env inputBlob
            ⟨settings.mode, settings.quality, settings.format⟩).1) := by
  simp only [Worker.processImage, compressFromBlob,
    decodeFromBlob_eq_decodeBuffer env inputBlob fmt hdetect]
  cases hd : Worker.decodeBuffer env inputBlob.data fmt with
  | error e => simp [Except.map, Worker.terminalOutput, resultBuffer]
  | ok imageData =>
    simp only [Except.map]
    rw [encodeBuffer_eq_encode]
    cases he : encode env imageData settings.format
        (getQuality settings.mode settings.format settings.quality) with
    | error e => simp [Worker.terminalOutput, resultBuffer]
    | ok compressedBuffer => simp [Worker.terminalOutput, resultBuffer]

/-- Witness for C5 at a concrete blob, format and settings: both hosts
produce the buffer `[3, 3]`. -/
theorem C5_host_equivalence_witness :
    Worker.terminalOutput
        (Worker.processImage testEnv ⟨"req-2", testBlob.data, ImageFormat.png, testSettings⟩)
      = some (resultBuffer
          (compressFromBlob testEnv testBlob
            ⟨testSettings.mode, testSettings.quality, testSettings.format⟩).1) ∧
    Worker.terminalOutput
        (Worker.processImage testEnv ⟨"req-2", testBlob.data, ImageFormat.png, testSettings⟩)
      = some (Except.ok [3, 3]) :=
  ⟨C5_host_equivalence testEnv testBlob ImageFormat.png testSettings "req-2" (by decide),
    rfl⟩

/-- C9: the AVIF adapter turns a null result of the underlying decoder
into a decode error, and returns an image only when the decoder
produced a non-null result. -/
theorem C9_avif_null_decode (env : CodecEnv) (buffer : Bytes) :
    (env.avifDecode buffer = .ok none →
      decodeAvif env buffer
        = .error "AVIF decode returned null — corrupt or unsupported image") ∧
    (∀ imageData, decodeAvif env buffer = .ok imageData →
      env.avifDecode buffer = .ok (some imageData)) := by
  constructor
  · intro h
    unfold decodeAvif
    rw [h]
  · intro imageData h
    unfold decodeAvif at h
    cases hr : env.avifDecode buffer with
    | error e => rw [hr] at h; simp at h
    | ok o =>
      cases o with
      | none => rw [hr] at h; simp at h
      | some r => rw [hr] at h; simp_all

/-- Witness for C9: a decoder that returns null makes `decodeAvif`
fail with the decode error. -/
theorem C9_avif_null_decode_witness :
    cenvC9.avifDecode [0] = Except.ok none ∧
    decodeAvif cenvC9 [0]
      = Except.error "AVIF decode returned null — corrupt or unsupported image" :=
  ⟨rfl, (C9_avif_null_decode cenvC9 [0]).1 rfl⟩

/-- C2 counterexample: in the jSquash inline orchestrator, a failing
WebP encoder makes `compressFromBlob` fail outright even though the
JPEG encoder of the same environment succeeds — no JPEG fallback is
attempted. -/
theorem C2_counterexample :
    (compressFromBlob cenvC2 testBlob ⟨CompressionMode.custom, 50, ImageFormat.webp⟩).1
      = Except.error "webp encoder failed" ∧
    cenvC2.encodeJpeg testImage 50 = Except.ok [1, 1] :=
  ⟨rfl, rfl⟩

/-- C2 (amended): only the Canvas-native orchestrator falls back to
JPEG — when its `try` block (the requested encode, including the AVIF
re-encode) throws, it encodes once as JPEG at the same resolved
quality and returns that result, failing only if the JPEG encode also
fails; the jSquash inline orchestrator and the worker have no JPEG
fallback and fail the operation on any encode error (the worker by
posting an error message). -/
theorem C2_jpeg_fallback (env : CodecEnv) (img : ImageData)
    (format : ImageFormat) (q : ℚ) (inputBlob : Blob)
    (options : CompressionOptions) (request : Worker.CompressRequest) :
    (∀ e, Native.tryEncode env img format q = .error e →
      Native.encodeWithFallback env img format q
        = Native.encodeWithCanvas env img .jpeg q) ∧
    (∀ e e', Native.tryEncode env img format q = .error e →
      Native.encodeWithCanvas env img .jpeg q = .error e' →
      Native.encodeWithFallback env img format q = .error e') ∧
    (∀ b, Native.tryEncode env img format q = .ok b →
      Native.encodeWithFallback env img format q = .ok b) ∧
    (∀ e jblob, env.loadBlobImage inputBlob = .ok img →
      Native.tryEncode env img options.outputFormat
          (getQuality options.mode options.outputFormat options.quality) = .error e →
      Native.encodeWithCanvas env img .jpeg
          (getQuality options.mode options.outputFormat options.quality) = .ok jblob →
      (Native.compressFromBlob env inputBlob options).1
        = .ok ⟨jblob.data, jblob, inputBlob.data.length, jblob.data.length,
            computeSavings inputBlob.data.length jblob.data.length⟩) ∧
    (∀ decoded e, decodeFromBlob env inputBlob = .ok decoded →
      encode env decoded.imageData options.outputFormat
          (getQuality options.mode options.outputFormat options.quality) = .error e →
      compressFromBlob env inputBlob options = (.error e, [5, 40])) ∧
    (∀ imageData e,
      Worker.decodeBuffer env request.buffer request.inputFormat = .ok imageData →
      Worker.encodeBuffer env imageData request.settings = .error e →
      Worker.processImage env request
        = [.progress request.id 5, .progress request.id 30,
            .progress request.id 35, .error request.id e]) := by
  refine ⟨?_, ?_, ?_, ?_, ?_, ?_⟩
  · intro e he
    simp [Native.encodeWithFallback, he]
  · intro e e' he he'
    simp [Native.encodeWithFallback, he, he']
  · intro b hb
    simp [Native.encodeWithFallback, hb]
  · intro e jblob hl he hj
    have hf : Native.encodeWithFallback env img options.outputFormat
        (getQuality options.mode options.outputFormat options.quality) = .ok jblob := by
      simp [Native.encodeWithFallback, he, hj]
    simp [Native.compressFromBlob, hl, hf]
  · intro decoded e hd he
    simp [compressFromBlob, hd, he]
  · intro imageData e hd he
    simp [Worker.processImage, hd, he]

/-- Witness for C2 (amended): a canvas that refuses WebP but accepts
JPEG makes the native encode path fall back to the JPEG encode. -/
theorem C2_jpeg_fallback_witness :
    Native.tryEncode cenvC2n testImage ImageFormat.webp 50
      = Except.error "Failed to encode as image/webp" ∧
    Native.encodeWithFallback cenvC2n testImage ImageFormat.webp 50
      = Native.encodeWithCanvas cenvC2n testImage ImageFormat.jpeg 50 ∧
    Native.encodeWithCanvas cenvC2n testImage ImageFormat.jpeg 50
      = Except.ok ⟨"image/jpeg", [8, 8]⟩ := by
  have h : Native.tryEncode cenvC2n testImage ImageFormat.webp 50
      = Except.error "Failed to encode as image/webp" := rfl
  exact ⟨h,
    (C2_jpeg_fallback cenvC2n testImage ImageFormat.webp 50 testBlob copts testRequest).1
      "Failed to encode as image/webp" h, rfl⟩

/-- C3 counterexample: in the jSquash inline orchestrator, an AVIF
request in an environment whose encoder output is not genuine AVIF is
returned as-is — labeled `image/avif` — with no WebP re-encode (the
WebP encoder would have produced `[3, 3]`). -/
theorem C3_counterexample :
    (compressFromBlob testEnv testBlob ⟨CompressionMode.smart, 80, ImageFormat.avif⟩).1
      = Except.ok c3res ∧
    testEnv.isAvifBytes c3res.buffer = false ∧
    testEnv.encodeWebp testImage
        (getQuality CompressionMode.smart ImageFormat.avif 80) = Except.ok [3, 3] ∧
    c3res.buffer ≠ [3, 3] ∧
    c3res.blob.type = "image/avif" :=
  ⟨rfl, rfl, rfl, by decide, rfl⟩

/-- C3 (amended): only the Canvas-native orchestrator detects a silent
AVIF downgrade — when the canvas blob produced for an AVIF request is
not typed as AVIF it re-encodes as WebP at the same resolved quality
and returns that blob labeled with the type actually produced, without
failing; the jSquash inline orchestrator and the worker return the
AVIF encoder's bytes unchecked (the inline result labeled
`image/avif`). -/
theorem C3_avif_downgrade (env : CodecEnv) (img imgData : ImageData) (q cq : ℚ)
    (mode : CompressionMode) :
    (∀ blob, Native.encodeWithCanvas env img .avif q = .ok blob →
      strIncludes blob.type "avif" = false →
      Native.tryEncode env img .avif q = Native.encodeWithCanvas env img .webp q) ∧
    (∀ blob, Native.encodeWithCanvas env img .avif q = .ok blob →
      strIncludes blob.type "avif" = true →
      Native.tryEncode env img .avif q = .ok blob) ∧
    encode env imgData .avif q = env.encodeAvif imgData q AVIF_EFFORT ∧
    Worker.encodeBuffer env imgData ⟨mode, cq, .avif⟩
      = env.encodeAvif imgData
          (Worker.getQualityForSettings ⟨mode, cq, .avif⟩) AVIF_EFFORT := by
  refine ⟨?_, ?_, rfl, rfl⟩
  · intro blob hb hinc
    simp [Native.tryEncode, hb, hinc]
  · intro blob hb hinc
    simp [Native.tryEncode, hb, hinc]

/-- Witness for C3 (amended): a canvas that downgrades AVIF to PNG
makes the native encode path re-encode as WebP. -/
theorem C3_avif_downgrade_witness :
    Native.encodeWithCanvas cenvC3n testImage ImageFormat.avif 50
      = Except.ok ⟨"image/png", [6, 6]⟩ ∧
    strIncludes "image/png" "avif" = false ∧
    Native.tryEncode cenvC3n testImage ImageFormat.avif 50
      = Native.encodeWithCanvas cenvC3n testImage ImageFormat.webp 50 ∧
    Native.encodeWithCanvas cenvC3n testImage ImageFormat.webp 50
      = Except.ok ⟨"image/webp", [9, 9]⟩ := by
  have hb : Native.encodeWithCanvas cenvC3n testImage ImageFormat.avif 50
      = Except.ok ⟨"image/png", [6, 6]⟩ := rfl
  exact ⟨hb, by decide,
    (C3_avif_downgrade cenvC3n testImage testImage 50 50 CompressionMode.smart).1
      ⟨"image/png", [6, 6]⟩ hb (by decide), rfl⟩

/-- C4 counterexample: a successful worker run posts the progress
values 5, 30, 35, 90 — the final emitted progress value is 90, not
100 (completion is signaled by the result message instead). -/
theorem C4_counterexample :
    Worker.hasResult (Worker.processImage testEnv testRequest) = true ∧
    Worker.progressValues (Worker.processImage testEnv testRequest) = [5, 30, 35, 90] ∧
    (Worker.progressValues (Worker.processImage testEnv testRequest)).getLast? ≠ some 100 := by
  refine ⟨rfl, rfl, ?_⟩
  rw [show Worker.progressValues (Worker.processImage testEnv testRequest)
      = [5, 30, 35, 90] from rfl]
  decide

/-- C4 (amended): on every successful compress call the progress
values are monotonically non-decreasing and start at 5; in the four
inline orchestrator entry points the final emitted value is 100, while
in the worker variant the final progress value is 90 and completion is
signaled by the result message rather than a progress message. -/
theorem C4_progress (env : CodecEnv) (url : String) (inputBlob : Blob)
    (options : CompressionOptions) (request : Worker.CompressRequest) :
    (∀ r ps, compressFromUrl env url options = (.ok r, ps) →
      ps = [5, 15, 40, 90, 100] ∧ List.Chain' (· ≤ ·) ps ∧
        ps.head? = some 5 ∧ ps.getLast? = some 100) ∧
    (∀ r ps, compressFromBlob env inputBlob options = (.ok r, ps) →
      ps = [5, 40, 90, 100] ∧ List.Chain' (· ≤ ·) ps ∧
        ps.head? = some 5 ∧ ps.getLast? = some 100) ∧
    (∀ r ps, Native.compressFromUrl env url options = (.ok r, ps) →
      ps = [5, 20, 40, 90, 100] ∧ List.Chain' (· ≤ ·) ps ∧
        ps.head? = some 5 ∧ ps.getLast? = some 100) ∧
    (∀ r ps, Native.compressFromBlob env inputBlob options = (.ok r, ps) →
      ps = [5, 40, 90, 100] ∧ List.Chain' (· ≤ ·) ps ∧
        ps.head? = some 5 ∧ ps.getLast? = some 100) ∧
    (Worker.hasResult (Worker.processImage env request) = true →
      Worker.progressValues (Worker.processImage env request) = [5, 30, 35, 90] ∧
      List.Chain' (· ≤ ·) (Worker.progressValues (Worker.processImage env request)) ∧
      (Worker.progressValues (Worker.processImage env request)).head? = some 5 ∧
      (Worker.progressValues (Worker.processImage env request)).getLast? = some 90) := by
  refine ⟨?_, ?_, ?_, ?_, ?_⟩
  · intro r ps h
    cases hf : env.fetchUrl url with
    | error e => simp only [compressFromUrl, hf] at h; exact absurd h (by simp)
    | ok blob =>
      simp only [compressFromUrl, hf] at h
      cases hd : decodeFromBlob env blob with
      | error e => simp only [hd] at h; exact absurd h (by simp)
      | ok decoded =>
        simp only [hd] at h
        cases he : encode env decoded.imageData options.outputFormat
            (getQuality options.mode options.outputFormat options.quality) with
        | error e => simp only [he] at h; exact absurd h (by simp)
        | ok compressedBuffer =>
          simp only [he, Prod.mk.injEq] at h
          obtain ⟨h1, h2⟩ := h
          subst h2
          exact ⟨rfl, by norm_num [List.chain'_cons], rfl, rfl⟩
  · intro r ps h
    cases hd : decodeFromBlob env inputBlob with
    | error e => simp only [compressFromBlob, hd] at h; exact absurd h (by simp)
    | ok decoded =>
      simp only [compressFromBlob, hd] at h
      cases he : encode env decoded.imageData options.outputFormat
          (getQuality options.mode options.outputFormat options.quality) with
      | error e => simp only [he] at h; exact absurd h (by simp)
      | ok compressedBuffer =>
        simp only [he, Prod.mk.injEq] at h
        obtain ⟨h1, h2⟩ := h
        subst h2
        exact ⟨rfl, by norm_num [List.chain'_cons], rfl, rfl⟩
  · intro r ps h
    cases hf : env.fetchUrl url with
    | error e => simp only [Native.compressFromUrl, hf] at h; exact absurd h (by simp)
    | ok blob =>
      simp only [Native.compressFromUrl, hf] at h
      cases hl : env.loadImage url with
      | error e => simp only [hl] at h; exact absurd h (by simp)
      | ok img =>
        simp only [hl] at h
        cases he : Native.encodeWithFallback env img options.outputFormat
            (getQuality options.mode options.outputFormat options.quality) with
        | error e => simp only [he] at h; exact absurd h (by simp)
        | ok compressedBlob =>
          simp only [he, Prod.mk.injEq] at h
          obtain ⟨h1, h2⟩ := h
          subst h2
          exact ⟨rfl, by norm_num [List.chain'_cons], rfl, rfl⟩
  · intro r ps h
    cases hl : env.loadBlobImage inputBlob with
    | error e => simp only [Native.compressFromBlob, hl] at h; exact absurd h (by simp)
    | ok img =>
      simp only [Native.compressFromBlob, hl] at h
      cases he : Native.encodeWithFallback env img options.outputFormat
          (getQuality options.mode options.outputFormat options.quality) with
      | error e => simp only [he] at h; exact absurd h (by simp)
      | ok compressedBlob =>
        simp only [he, Prod.mk.injEq] at h
        obtain ⟨h1, h2⟩ := h
        subst h2
        exact ⟨rfl, by norm_num [List.chain'_cons], rfl, rfl⟩
  · intro hres
    cases hd : Worker.decodeBuffer env request.buffer request.inputFormat with
    | error e =>
      have hp : Worker.processImage env request
          = [.progress request.id 5, .error request.id e] := by
        simp [Worker.processImage, hd]
      rw [hp] at hres
      simp [Worker.hasResult] at hres
    | ok imageData =>
      cases he : Worker.encodeBuffer env imageData request.settings with
      | error e =>
        have hp : Worker.processImage env request
            = [.progress request.id 5, .progress request.id 30,
                .progress request.id 35, .error request.id e] := by
          simp [Worker.processImage, hd, he]
        rw [hp] at hres
        simp [Worker.hasResult] at hres
      | ok compressedBuffer =>
        have hp : Worker.processImage env request
            = [.progress request.id 5, .progress request.id 30,
                .progress request.id 35, .progress request.id 90,
                .result request.id compressedBuffer request.buffer.length
                  compressedBuffer.length] := by
          simp [Worker.processImage, hd, he]
        rw [hp]
        exact ⟨rfl, by norm_num [Worker.progressValues, List.chain'_cons], rfl, rfl⟩

/-- Witness for C4 (amended): a concrete successful inline
`compressFromBlob` run with progress trace 5, 40, 90, 100. -/
theorem C4_progress_witness :
    compressFromBlob testEnv testBlob copts = (Except.ok c1res, [5, 40, 90, 100]) ∧
    ([5, 40, 90, 100] = [5, 40, 90, 100] ∧
      List.Chain' (· ≤ ·) [5, 40, 90, 100] ∧
      [5, 40, 90, 100].head? = some 5 ∧ [5, 40, 90, 100].getLast? = some 100) := by
  have h : compressFromBlob testEnv testBlob copts
      = (Except.ok c1res, [5, 40, 90, 100]) := rfl
  exact ⟨h, (C4_progress testEnv "u" testBlob copts testRequest).2.1 c1res
    [5, 40, 90, 100] h⟩

/-- C7 counterexample: the Canvas-native orchestrator returns the
canvas PNG encode output `[9, 9]` directly — it is not the output of
the PNG optimizer pipeline (which would produce `[2, 2, 7]` in this
environment), and no optimizer output at level 3 can equal it. -/
theorem C7_counterexample :
    (Native.compressFromBlob testEnv testBlob
        ⟨CompressionMode.smart, 80, ImageFormat.png⟩).1 = Except.ok c7res ∧
    (match testEnv.encodePng testImage with
      | .error e => Except.error e
      | .ok rawPng => testEnv.optimizePng rawPng 3) = Except.ok [2, 2, 7] ∧
    c7res.buffer ≠ [2, 2, 7] :=
  ⟨rfl, rfl, by decide⟩

/-- C7 (amended): in the jSquash inline orchestrator and in the worker
every PNG encode result passes through the PNG optimizer at fixed
level 3 before being returned; the Canvas-native variant returns the
canvas PNG output directly, with no optimizer pass. -/
theorem C7_png_optimize (env : CodecEnv) (imageData imgData : ImageData) (q cq : ℚ)
    (mode : CompressionMode) :
    encode env imageData .png q
      = (match env.encodePng imageData with
          | .error e => .error e
          | .ok rawPng => env.optimizePng rawPng 3) ∧
    Worker.encodeBuffer env imgData ⟨mode, cq, .png⟩
      = (match env.encodePng imgData with
          | .error e => .error e
          | .ok rawPng => env.optimizePng rawPng 3) ∧
    (∀ blob, env.canvasToBlob imageData "image/png" (q / 100) = some blob →
      Native.encodeWithFallback env imageData .png q = .ok blob) := by
  refine ⟨rfl, rfl, ?_⟩
  intro blob hb
  have hc : Native.encodeWithCanvas env imageData .png q = .ok blob := by
    simp [Native.encodeWithCanvas, getMimeType, hb]
  simp [Native.encodeWithFallback, Native.tryEncode, hc]

/-- Witness for C7 (amended): in `testEnv`, the canvas PNG blob
`[9, 9]` is returned unchanged by the native encode path. -/
theorem C7_png_optimize_witness :
    testEnv.canvasToBlob testImage "image/png" ((80 : ℚ) / 100)
      = some ⟨"image/png", [9, 9]⟩ ∧
    Native.encodeWithFallback testEnv testImage ImageFormat.png 80
      = Except.ok ⟨"image/png", [9, 9]⟩ :=
  ⟨rfl, (C7_png_optimize testEnv testImage testImage 80 80 CompressionMode.smart).2.2
    ⟨"image/png", [9, 9]⟩ rfl⟩

/-- C10: a `compress`-typed worker message produces exactly one
terminal response (a result or an error), carrying the request's id,
as the last posted message; any decode or encode exception is caught
and converted into an error message with that id; messages of any
other type produce no response at all. -/
theorem C10_worker_protocol (env : CodecEnv) (event : Worker.WorkerEvent) :
    (event.msgType = "compress" →
      ((Worker.onMessage env event).filter Worker.isTerminal).length = 1 ∧
      (∀ resp ∈ Worker.onMessage env event,
        Worker.responseId resp = event.request.id) ∧
      (∃ resp, (Worker.onMessage env event).getLast? = some resp ∧
        Worker.isTerminal resp = true) ∧
      (∀ e, Worker.decodeBuffer env event.request.buffer event.request.inputFormat
          = .error e →
        Worker.WorkerResponse.error event.request.id e ∈ Worker.onMessage env event) ∧
      (∀ imageData e,
        Worker.decodeBuffer env event.request.buffer event.request.inputFormat
          = .ok imageData →
        Worker.encodeBuffer env imageData event.request.settings = .error e →
        Worker.WorkerResponse.error event.request.id e ∈ Worker.onMessage env event)) ∧
    (event.msgType ≠ "compress" → Worker.onMessage env event = []) := by
  constructor
  · intro hm
    cases hd : Worker.decodeBuffer env event.request.buffer event.request.inputFormat with
    | error e =>
      have hp : Worker.onMessage env event
          = [.progress event.request.id 5, .error event.request.id e] := by
        simp [Worker.onMessage, hm, Worker.processImage, hd]
      rw [hp]
      refine ⟨rfl, ?_, ⟨_, rfl, rfl⟩, ?_, ?_⟩
      · intro resp hr
        fin_cases hr <;> rfl
      · intro e' he
        injection he with he
        subst he
        simp
      · intro imageData e' hdec henc
        simp at hdec
    | ok imageData =>
      cases he : Worker.encodeBuffer env imageData event.request.settings with
      | error e =>
        have hp : Worker.onMessage env event
            = [.progress event.request.id 5, .progress event.request.id 30,
                .progress event.request.id 35, .error event.request.id e] := by
          simp [Worker.onMessage, hm, Worker.processImage, hd, he]
        rw [hp]
        refine ⟨rfl, ?_, ⟨_, rfl, rfl⟩, ?_, ?_⟩
        · intro resp hr
          fin_cases hr <;> rfl
        · intro e' hdec
          simp at hdec
        · intro imageData' e' hdec henc
          injection hdec with hdec
          subst hdec
          rw [he] at henc
          injection henc with henc
          subst henc
          simp
      | ok compressedBuffer =>
        have hp : Worker.onMessage env event
            = [.progress event.request.id 5, .progress event.request.id 30,
                .progress event.request.id 35, .progress event.request.id 90,
                .result event.request.id compressedBuffer event.request.buffer.length
                  compressedBuffer.length] := by
          simp [Worker.onMessage, hm, Worker.processImage, hd, he]
        rw [hp]
        refine ⟨rfl, ?_, ⟨_, rfl, rfl⟩, ?_, ?_⟩
        · intro resp hr
          fin_cases hr <;> rfl
        · intro e' hdec
          simp at hdec
        · intro imageData' e' hdec henc
          injection hdec with hdec
          subst hdec
          rw [he] at henc
          simp at henc
  · intro hm
    simp [Worker.onMessage, hm]

/-- Witness for C10 at a concrete `compress` event in `testEnv`. -/
theorem C10_worker_protocol_witness :
    ((Worker.onMessage testEnv testEvent).filter Worker.isTerminal).length = 1 ∧
    (∀ resp ∈ Worker.onMessage testEnv testEvent,
      Worker.responseId resp = testEvent.request.id) ∧
    (∃ resp, (Worker.onMessage testEnv testEvent).getLast? = some resp ∧
      Worker.isTerminal resp = true) ∧
    (∀ e, Worker.decodeBuffer testEnv testEvent.request.buffer testEvent.request.inputFormat
        = .error e →
      Worker.WorkerResponse.error testEvent.request.id e
        ∈ Worker.onMessage testEnv testEvent) ∧
    (∀ imageData e,
      Worker.decodeBuffer testEnv testEvent.request.buffer testEvent.request.inputFormat
        = .ok imageData →
      Worker.encodeBuffer testEnv imageData testEvent.request.settings = .error e →
      Worker.WorkerResponse.error testEvent.request.id e
        ∈ Worker.onMessage testEnv testEvent) :=
  (C10_worker_protocol testEnv testEvent).1 rfl

end Koji
